import Mathlib

/-!
Verification of the AFLTriage triage engine (Rust sources:
src/main.rs, src/gdb_triage.rs, src/debugger/gdb.rs).

Rust strings are modelled as their UTF-8 byte sequences (`ByteStr`),
since the source manipulates byte indices (`str::find` returns byte
offsets and slicing `&s[a..b]` is byte-indexed and panics off a
character boundary).  Fallible operations return an explicit
ok/err/panicked result so that Rust panics are observable.
-/

set_option maxRecDepth 40000

/-- A Rust `String`/`&str` viewed as its UTF-8 byte sequence. -/
abbrev ByteStr := List Nat

/-- Byte sequence of an ASCII string literal (code points below 128
coincide with their UTF-8 encoding). -/
def asciiBytes (s : String) : ByteStr := s.data.map Char.toNat

/-- `leadsWith tag text` is true when `tag` is an initial segment of
`text` (the byte-level prefix test used by `str::find`). -/
def leadsWith : ByteStr → ByteStr → Bool
  | [], _ => true
  | _ :: _, [] => false
  | a :: as, b :: bs => a == b && leadsWith as bs

/-- `occursAt text tag i`: the byte pattern `tag` occurs in `text`
starting at byte offset `i`. -/
def occursAt (text tag : ByteStr) (i : Nat) : Bool :=
  leadsWith tag (text.drop i)

/-- First byte offset of `tag` in `text`, as computed by Rust
`str::find` with a literal pattern. -/
def findSub (text tag : ByteStr) : Option Nat :=
  match text with
  | [] => if leadsWith tag [] then some 0 else none
  | _ :: rest =>
    if leadsWith tag (text) then some 0
    else (findSub rest tag).map (· + 1)

/-- `i` is the first occurrence of `tag` in `text` (declarative
counterpart of `findSub`). -/
def firstOccAt (text tag : ByteStr) (i : Nat) : Prop :=
  occursAt text tag i = true ∧ ∀ j, j < i → occursAt text tag j = false

instance (text tag : ByteStr) (i : Nat) : Decidable (firstOccAt text tag i) := by
  unfold firstOccAt; infer_instance

/-- A UTF-8 continuation byte (`0b10xxxxxx`). -/
def isUtf8Cont (b : Nat) : Bool := 128 ≤ b && b < 192

/-- Rust `str::is_char_boundary` on the byte view: offset 0, the total
length, or any byte that is not a continuation byte. -/
def isCharBoundary (s : ByteStr) (i : Nat) : Bool :=
  if i = 0 then true
  else if i = s.length then true
  else
    match s.get? i with
    | some b => !isUtf8Cont b
    | none => false

/-- Outcome of a Rust computation: `Ok`, `Err`, or a panic. -/
inductive RRes (α β : Type) where
  | ok (a : α)
  | err (e : β)
  | panicked
  deriving DecidableEq, Repr

/-- The error strings produced by `DbgMarker::extract`
(`"Could not find {tag}"` and the out-of-order message). -/
inductive ExtractErr where
  | couldNotFind (tag : ByteStr)
  | outOfOrder
  deriving DecidableEq, Repr

/-- A start/end tag pair (struct `DbgMarker`; the Rust field `end` is
named `end_` here because `end` is a Lean keyword). -/
structure DbgMarker where
  start : ByteStr
  end_ : ByteStr
  deriving DecidableEq, Repr

/-- `DbgMarker::extract` (identical in src/gdb_triage.rs and
src/debugger/gdb.rs): find the first occurrence of the start tag, find
the first occurrence of the end tag, advance the start index by
`start.len() + 1` (skipping the newline assumed to terminate the tag),
fail out-of-order if the adjusted start exceeds the end index, and
otherwise return the byte slice `&text[start_idx..end_idx]`.  The Rust
slice operation panics when an index is out of bounds or off a
character boundary, which `.panicked` records. -/
def DbgMarker.extract (m : DbgMarker) (text : ByteStr) : RRes ByteStr ExtractErr :=
  match findSub text m.start with
  | none => .err (.couldNotFind m.start)
  | some s0 =>
    match findSub text m.end_ with
    | none => .err (.couldNotFind m.end_)
    | some e =>
      if s0 + m.start.length + 1 ≤ e then
        if e ≤ text.length ∧ isCharBoundary text (s0 + m.start.length + 1) = true ∧
            isCharBoundary text e = true then
          .ok ((text.take e).drop (s0 + m.start.length + 1))
        else .panicked
      else .err .outOfOrder

/-- `MARKER_CHILD_OUTPUT` from the source (`make_marker!` with
`AFLTRIAGE_CHILD_OUTPUT`). -/
def MARKER_CHILD_OUTPUT : DbgMarker :=
  ⟨asciiBytes ("----AFLTRIAGE_CHILD_OUTPUT_START----"),
   asciiBytes ("----AFLTRIAGE_CHILD_OUTPUT_END----")⟩

/-- `MARKER_BACKTRACE` from the source (`make_marker!` with
`AFLTRIAGE_BACKTRACE`). -/
def MARKER_BACKTRACE : DbgMarker :=
  ⟨asciiBytes ("----AFLTRIAGE_BACKTRACE_START----"),
   asciiBytes ("----AFLTRIAGE_BACKTRACE_END----")⟩

-- Sanity examples (concrete evaluation of the embedding).
example : findSub (asciiBytes ("abcbc")) (asciiBytes ("bc")) = some 1 := by decide
example :
    DbgMarker.extract ⟨asciiBytes ("SS"), asciiBytes ("EE")⟩ (asciiBytes ("SS\nhi\nEE")) =
      .ok (asciiBytes ("hi\n")) := by decide

/-! ### Properties of the substring search -/

theorem leadsWith_length {tag t : ByteStr} (h : leadsWith tag t = true) :
    tag.length ≤ t.length := by
  induction tag generalizing t with
  | nil => simp
  | cons a as ih =>
    cases t with
    | nil => simp [leadsWith] at h
    | cons b bs =>
      simp only [leadsWith, Bool.and_eq_true] at h
      simpa using ih h.2

theorem leadsWith_append {tag t u : ByteStr} (h : leadsWith tag t = true) :
    leadsWith tag (t ++ u) = true := by
  induction tag generalizing t with
  | nil => simp [leadsWith]
  | cons a as ih =>
    cases t with
    | nil => simp [leadsWith] at h
    | cons b bs =>
      simp only [leadsWith, Bool.and_eq_true] at h ⊢
      exact ⟨h.1, by simpa using ih h.2⟩

theorem leadsWith_append_of_le {tag t u : ByteStr} (h : tag.length ≤ t.length) :
    leadsWith tag (t ++ u) = leadsWith tag t := by
  induction tag generalizing t with
  | nil => simp [leadsWith]
  | cons a as ih =>
    cases t with
    | nil => simp at h
    | cons b bs =>
      simp only [List.cons_append, leadsWith]
      rw [List.append_eq, ih (by simpa using h)]

theorem occursAt_zero (text tag : ByteStr) : occursAt text tag 0 = leadsWith tag text := rfl

theorem occursAt_cons_succ (b : Nat) (rest tag : ByteStr) (j : Nat) :
    occursAt (b :: rest) tag (j + 1) = occursAt rest tag j := by
  simp [occursAt]

theorem occursAt_length_bound {text tag : ByteStr} {i : Nat}
    (h : occursAt text tag i = true) (hne : tag ≠ []) : i + tag.length ≤ text.length := by
  unfold occursAt at h
  have hlen := leadsWith_length h
  rw [List.length_drop] at hlen
  rcases le_or_lt i text.length with hle | hlt
  · omega
  · exfalso
    have : text.length - i = 0 := by omega
    rw [this, Nat.le_zero, List.length_eq_zero] at hlen
    exact hne hlen

theorem findSub_some_le {text tag : ByteStr} {i : Nat} (h : findSub text tag = some i) :
    i ≤ text.length := by
  induction text generalizing i with
  | nil =>
    unfold findSub at h
    split at h
    · cases h; simp
    · cases h
  | cons b rest ih =>
    unfold findSub at h
    split at h
    · cases h; simp
    · rcases Option.map_eq_some'.mp h with ⟨j, hj, rfl⟩
      have := ih hj
      simp only [List.length_cons]
      omega

theorem findSub_some_first {text tag : ByteStr} {i : Nat} (h : findSub text tag = some i) :
    firstOccAt text tag i := by
  induction text generalizing i with
  | nil =>
    unfold findSub at h
    split at h
    next hlw =>
      cases h
      exact ⟨by simpa [occursAt] using hlw, by omega⟩
    next hlw => cases h
  | cons b rest ih =>
    unfold findSub at h
    split at h
    next hlw =>
      cases h
      exact ⟨by simpa [occursAt_zero] using hlw, by omega⟩
    next hlw =>
      rcases Option.map_eq_some'.mp h with ⟨j, hj, rfl⟩
      rcases ih hj with ⟨hocc, hmin⟩
      refine ⟨by simpa [occursAt_cons_succ] using hocc, ?_⟩
      intro k hk
      cases k with
      | zero =>
        rw [occursAt_zero]
        simpa using hlw
      | succ k =>
        rw [occursAt_cons_succ]
        exact hmin k (by omega)

theorem findSub_none {text tag : ByteStr} (h : findSub text tag = none) :
    ∀ i, occursAt text tag i = false := by
  induction text with
  | nil =>
    intro i
    unfold findSub at h
    split at h
    next => cases h
    next hlw => simp only [occursAt, List.drop_nil]; simpa using hlw
  | cons b rest ih =>
    intro i
    unfold findSub at h
    split at h
    next => cases h
    next hlw =>
      have hrest : findSub rest tag = none := by
        cases hx : findSub rest tag with
        | none => rfl
        | some v => rw [hx] at h; cases h
      cases i with
      | zero =>
        rw [occursAt_zero]
        simpa using hlw
      | succ j =>
        rw [occursAt_cons_succ]
        exact ih hrest j

theorem firstOccAt_unique {text tag : ByteStr} {i j : Nat}
    (hi : firstOccAt text tag i) (hj : firstOccAt text tag j) : i = j := by
  rcases Nat.lt_trichotomy i j with h | h | h
  · have := hj.2 i h
    rw [hi.1] at this
    cases this
  · exact h
  · have := hi.2 j h
    rw [hj.1] at this
    cases this

theorem findSub_eq_some_iff {text tag : ByteStr} {i : Nat} :
    findSub text tag = some i ↔ firstOccAt text tag i := by
  constructor
  · exact findSub_some_first
  · intro h
    cases hx : findSub text tag with
    | none =>
      have := findSub_none hx i
      rw [h.1] at this
      cases this
    | some v =>
      have := firstOccAt_unique (findSub_some_first hx) h
      rw [this]

theorem findSub_eq_none_iff {text tag : ByteStr} :
    findSub text tag = none ↔ ∀ i, occursAt text tag i = false := by
  constructor
  · exact findSub_none
  · intro h
    cases hx : findSub text tag with
    | none => rfl
    | some v =>
      have := (findSub_some_first hx).1
      rw [h v] at this
      cases this

theorem findSub_nil_tag (text : ByteStr) : findSub text [] = some 0 := by
  cases text <;> simp [findSub, leadsWith]

theorem occursAt_append_left {s u tag : ByteStr} {i : Nat}
    (h : i + tag.length ≤ s.length) : occursAt (s ++ u) tag i = occursAt s tag i := by
  unfold occursAt
  rw [List.drop_append_of_le_length (by omega)]
  exact leadsWith_append_of_le (by rw [List.length_drop]; omega)

theorem findSub_append_of_some {s u tag : ByteStr} {i : Nat}
    (h : findSub s tag = some i) : findSub (s ++ u) tag = some i := by
  by_cases htag : tag = []
  · subst htag
    rw [findSub_nil_tag s] at h
    cases h
    exact findSub_nil_tag (s ++ u)
  · rcases findSub_some_first h with ⟨hocc, hmin⟩
    have hbound := occursAt_length_bound hocc htag
    rw [findSub_eq_some_iff]
    refine ⟨by rwa [occursAt_append_left hbound], ?_⟩
    intro j hj
    rw [occursAt_append_left (by omega)]
    exact hmin j hj

theorem isCharBoundary_append_left {s u : ByteStr} {i : Nat} (h : i < s.length) :
    isCharBoundary (s ++ u) i = isCharBoundary s i := by
  unfold isCharBoundary
  by_cases h0 : i = 0
  · simp [h0]
  · rw [if_neg h0, if_neg h0, if_neg (show ¬i = s.length by omega),
      if_neg (show ¬i = (s ++ u).length by rw [List.length_append]; omega)]
    rw [List.get?_append h]

/-! ### Claim theorems about marker extraction -/

/-- C1 (amended): `DbgMarker::extract` behaves as specified — missing
start tag fails with could-not-find-start; start present but end tag
missing fails with could-not-find-end; with both tags present at first
occurrences `i0` and `e`, the payload start is `a = i0 + start.len + 1`,
`a > e` fails out-of-order, and `a ≤ e` returns the byte slice
`[a..e)` — the latter provided `a` and `e` lie on character boundaries
(otherwise Rust slicing panics; see the counterexample); `a = e` yields
the empty payload, a valid non-error result. -/
theorem extract_marker_behavior (m : DbgMarker) (s : ByteStr) :
    ((∀ i, occursAt s m.start i = false) →
        DbgMarker.extract m s = .err (.couldNotFind m.start))
    ∧ (∀ i0, firstOccAt s m.start i0 → (∀ j, occursAt s m.end_ j = false) →
        DbgMarker.extract m s = .err (.couldNotFind m.end_))
    ∧ (∀ i0 e, firstOccAt s m.start i0 → firstOccAt s m.end_ e →
        (e < i0 + m.start.length + 1 → DbgMarker.extract m s = .err .outOfOrder)
        ∧ (i0 + m.start.length + 1 ≤ e →
            isCharBoundary s (i0 + m.start.length + 1) = true →
            isCharBoundary s e = true →
            DbgMarker.extract m s = .ok ((s.take e).drop (i0 + m.start.length + 1))
            ∧ (i0 + m.start.length + 1 = e → DbgMarker.extract m s = .ok []))) := by
  refine ⟨?_, ?_, ?_⟩
  · intro hnone
    unfold DbgMarker.extract
    rw [findSub_eq_none_iff.mpr hnone]
  · intro i0 hfirst hnone
    unfold DbgMarker.extract
    rw [findSub_eq_some_iff.mpr hfirst, findSub_eq_none_iff.mpr hnone]
  · intro i0 e hst hen
    have hs0 : findSub s m.start = some i0 := findSub_eq_some_iff.mpr hst
    have he0 : findSub s m.end_ = some e := findSub_eq_some_iff.mpr hen
    have hele : e ≤ s.length := findSub_some_le he0
    constructor
    · intro hlt
      unfold DbgMarker.extract
      rw [hs0, he0]
      simp only
      rw [if_neg (by omega)]
    · intro hle hba hbe
      have hok : DbgMarker.extract m s =
          .ok ((s.take e).drop (i0 + m.start.length + 1)) := by
        unfold DbgMarker.extract
        rw [hs0, he0]
        simp only
        rw [if_pos hle, if_pos ⟨hele, hba, hbe⟩]
      refine ⟨hok, fun heq => ?_⟩
      have hnil : (s.take e).drop e = [] :=
        List.drop_eq_nil_of_le (by rw [List.length_take]; omega)
      rw [heq] at hok
      rw [hok, hnil]

/-- C1 counterexample: on the valid UTF-8 stream composed of the start
tag "SS", the two-byte character 0xC3 0xA9, and the end tag "EE", the
first occurrences give adjusted start index 3 and end index 4 with
3 ≤ 4, yet extract panics (byte 3 is a continuation byte, not a
character boundary) instead of returning the slice. -/
theorem extract_slice_panics_midchar :
    firstOccAt [83, 83, 195, 169, 69, 69] [83, 83] 0
    ∧ firstOccAt [83, 83, 195, 169, 69, 69] [69, 69] 4
    ∧ 0 + ([83, 83] : ByteStr).length + 1 ≤ 4
    ∧ DbgMarker.extract ⟨[83, 83], [69, 69]⟩ [83, 83, 195, 169, 69, 69] = .panicked := by
  decide

/-- C1 witness: a concrete, fully ASCII stream where the theorem
produces the expected payload. -/
theorem extract_marker_behavior_inst :
    DbgMarker.extract ⟨asciiBytes ("SS"), asciiBytes ("EE")⟩ (asciiBytes ("SS\nhi\nEE")) =
      .ok (asciiBytes ("hi\n")) := by
  have h := (((extract_marker_behavior ⟨asciiBytes ("SS"), asciiBytes ("EE")⟩
      (asciiBytes ("SS\nhi\nEE"))).2.2 0 6 (by decide) (by decide)).2
      (by decide) (by decide) (by decide)).1
  have hs : ((asciiBytes ("SS\nhi\nEE")).take 6).drop
      (0 + (asciiBytes ("SS")).length + 1) = asciiBytes ("hi\n") := by decide
  rw [h, hs]

/-- C6 (amended): the end marker is matched by the first occurrence of
the end tag in the entire stream, not the first occurrence after the
payload start: when that globally-first occurrence `e` precedes the
payload start, extraction fails out-of-order even though a later
occurrence of the end tag at a position at or after the payload start
exists. -/
theorem extract_end_global_first (m : DbgMarker) (s : ByteStr) (i0 e e2 : Nat)
    (h1 : firstOccAt s m.start i0) (h2 : firstOccAt s m.end_ e)
    (h3 : e < i0 + m.start.length + 1)
    (h4 : occursAt s m.end_ e2 = true) (h5 : i0 + m.start.length + 1 ≤ e2) :
    DbgMarker.extract m s = .err .outOfOrder := by
  unfold DbgMarker.extract
  rw [findSub_eq_some_iff.mpr h1, findSub_eq_some_iff.mpr h2]
  simp only
  rw [if_neg (by omega)]

/-- C6 counterexample: in the stream "EE\nSS\nP\nEE" the end tag also
occurs at index 8, at or after the payload start 6, so by the claim
extraction should succeed; the code instead fails out-of-order because
it takes the globally first end-tag occurrence (index 0). -/
theorem extract_fails_despite_later_end :
    occursAt [69, 69, 10, 83, 83, 10, 80, 10, 69, 69] [69, 69] 8 = true
    ∧ 3 + ([83, 83] : ByteStr).length + 1 ≤ 8
    ∧ DbgMarker.extract ⟨[83, 83], [69, 69]⟩ [69, 69, 10, 83, 83, 10, 80, 10, 69, 69] =
        .err .outOfOrder := by
  decide

/-- C6 witness: the amended theorem instantiated on the stream above. -/
theorem extract_end_global_first_inst :
    DbgMarker.extract ⟨[83, 83], [69, 69]⟩ [69, 69, 10, 83, 83, 10, 80, 10, 69, 69] =
      .err .outOfOrder :=
  extract_end_global_first ⟨[83, 83], [69, 69]⟩ [69, 69, 10, 83, 83, 10, 80, 10, 69, 69]
    3 0 8 (by decide) (by decide) (by decide) (by decide) (by decide)

/-- C7 (amended): appending trailing text to a stream leaves extraction
(success payloads and failure messages alike) unchanged provided the
appended text introduces no new occurrence of either tag — neither
inside itself nor spanning the junction.  (The unamended claim only
forbade the tags inside the appended text; a tag completed across the
junction changes the result, see the counterexample.) -/
theorem extract_append_invariant (m : DbgMarker) (s extra : ByteStr)
    (h1 : (findSub (s ++ extra) m.start).isSome = true → (findSub s m.start).isSome = true)
    (h2 : (findSub (s ++ extra) m.end_).isSome = true → (findSub s m.end_).isSome = true) :
    DbgMarker.extract m (s ++ extra) = DbgMarker.extract m s := by
  cases hs : findSub s m.start with
  | none =>
    have hs2 : findSub (s ++ extra) m.start = none := by
      cases hx : findSub (s ++ extra) m.start with
      | none => rfl
      | some v =>
        have := h1 (by rw [hx]; rfl)
        rw [hs] at this
        cases this
    unfold DbgMarker.extract
    rw [hs, hs2]
  | some s0 =>
    have hs2 : findSub (s ++ extra) m.start = some s0 := findSub_append_of_some hs
    cases he : findSub s m.end_ with
    | none =>
      have he2 : findSub (s ++ extra) m.end_ = none := by
        cases hx : findSub (s ++ extra) m.end_ with
        | none => rfl
        | some v =>
          have := h2 (by rw [hx]; rfl)
          rw [he] at this
          cases this
      unfold DbgMarker.extract
      rw [hs, hs2, he, he2]
    | some e =>
      have he2 : findSub (s ++ extra) m.end_ = some e := findSub_append_of_some he
      unfold DbgMarker.extract
      rw [hs, hs2, he, he2]
      simp only
      by_cases hord : s0 + m.start.length + 1 ≤ e
      · rw [if_pos hord, if_pos hord]
        by_cases hetag : m.end_ = []
        · exfalso
          rw [hetag, findSub_nil_tag] at he
          cases he
          omega
        · have hocc := (findSub_some_first he).1
          have hbound := occursAt_length_bound hocc hetag
          have h1e : 1 ≤ m.end_.length := by
            cases hme : m.end_ with
            | nil => exact absurd hme hetag
            | cons c cs => simp
          have hlt : e < s.length := by omega
          have halt : s0 + m.start.length + 1 < s.length := by omega
          rw [isCharBoundary_append_left halt, isCharBoundary_append_left hlt,
            List.take_append_of_le_length (le_of_lt hlt)]
          refine if_congr (and_congr_left' ?_) rfl rfl
          exact iff_of_true (by rw [List.length_append]; omega) (le_of_lt hlt)
      · rw [if_neg hord, if_neg hord]

/-- C7 counterexample: with tags "SS"/"EE", the trailing text "S"
contains neither tag, yet appending it to "EES" completes a start-tag
occurrence across the junction and changes the result from
could-not-find-start to out-of-order. -/
theorem extract_append_seam_changes :
    (findSub [83] [83, 83]).isSome = false
    ∧ (findSub [83] [69, 69]).isSome = false
    ∧ DbgMarker.extract ⟨[83, 83], [69, 69]⟩ ([69, 69, 83] ++ [83]) =
        .err .outOfOrder
    ∧ DbgMarker.extract ⟨[83, 83], [69, 69]⟩ [69, 69, 83] =
        .err (.couldNotFind [83, 83]) := by
  decide

/-- C7 witness: the amended theorem instantiated on a stream containing
both tags, with appended text that even contains a (later) copy of the
end tag. -/
theorem extract_append_invariant_inst :
    DbgMarker.extract ⟨asciiBytes ("SS"), asciiBytes ("EE")⟩
        (asciiBytes ("SS\nhi\nEE") ++ asciiBytes ("junk EE")) =
      DbgMarker.extract ⟨asciiBytes ("SS"), asciiBytes ("EE")⟩ (asciiBytes ("SS\nhi\nEE")) := by
  apply extract_append_invariant
  · intro _
    decide
  · intro _
    decide

/-- C10 (amended): extraction is total and panic-free provided the
computed payload start index and the end-tag index fall on character
boundaries of the stream — as they do for all-ASCII streams or whenever
the start tag is followed by a newline; the unamended universal no-panic
claim fails on multi-byte characters straddling the payload start (see
the counterexample). -/
theorem extract_no_panic_on_boundaries (m : DbgMarker) (s : ByteStr)
    (h1 : ∀ i0, findSub s m.start = some i0 →
        isCharBoundary s (i0 + m.start.length + 1) = true)
    (h2 : ∀ e, findSub s m.end_ = some e → isCharBoundary s e = true) :
    DbgMarker.extract m s ≠ .panicked := by
  unfold DbgMarker.extract
  cases hs : findSub s m.start with
  | none => simp
  | some s0 =>
    cases he : findSub s m.end_ with
    | none => simp
    | some e =>
      simp only
      by_cases hord : s0 + m.start.length + 1 ≤ e
      · rw [if_pos hord, if_pos ⟨findSub_some_le he, h1 s0 hs, h2 e he⟩]
        simp
      · rw [if_neg hord]
        simp

/-- C10 counterexample: on the valid UTF-8 stream "AB" ++ 0xC3 0xA9 ++
"CD" with markers "AB"/"CD", extraction panics: the payload start index
3 lands inside the two-byte character. -/
theorem extract_panics_on_multibyte :
    DbgMarker.extract ⟨[65, 66], [67, 68]⟩ [65, 66, 195, 169, 67, 68] = .panicked := by
  decide

/-- C10 witness: a stream containing a multi-byte character in payload
position (not straddling the payload start) extracts without panic. -/
theorem extract_no_panic_on_boundaries_inst :
    DbgMarker.extract ⟨[65, 66], [67, 68]⟩ [65, 66, 10, 195, 169, 10, 67, 68] ≠
      .panicked := by
  apply extract_no_panic_on_boundaries
  · intro i0 h
    rw [show findSub [65, 66, 10, 195, 169, 10, 67, 68] [65, 66] = some 0 from by decide] at h
    injection h with h
    subst h
    decide
  · intro e h
    rw [show findSub [65, 66, 10, 195, 169, 10, 67, 68] [67, 68] = some 6 from by decide] at h
    injection h with h
    subst h
    decide

/-! ### The triage JSON schema (src/gdb_triage.rs, the module main.rs
imports) and a model of `serde_json::from_str` for it -/

/-- struct `GdbVariable` (the Rust field `r#type` is `type_` here). -/
structure GdbVariable where
  type_ : ByteStr
  name : ByteStr
  value : ByteStr
  deriving DecidableEq, Repr

/-- struct `GdbSymbol`. -/
structure GdbSymbol where
  function_name : Option ByteStr
  function_line : Option Int
  mangled_function_name : Option ByteStr
  function_signature : Option ByteStr
  callsite : Option (List ByteStr)
  file : Option ByteStr
  line : Option Int
  args : Option (List GdbVariable)
  locals : Option (List GdbVariable)
  deriving DecidableEq, Repr

/-- struct `GdbFrameInfo` (`u64` addresses carried as `Nat`, with the
range enforced at decode time). -/
structure GdbFrameInfo where
  address : Nat
  relative_address : Nat
  module : ByteStr
  module_address : ByteStr
  symbol : Option GdbSymbol
  deriving DecidableEq, Repr

/-- struct `GdbRegister`. -/
structure GdbRegister where
  name : ByteStr
  value : Nat
  pretty_value : ByteStr
  type_ : ByteStr
  size : Nat
  deriving DecidableEq, Repr

/-- struct `GdbThread`. -/
structure GdbThread where
  tid : Int
  backtrace : List GdbFrameInfo
  current_instruction : Option ByteStr
  registers : Option (List GdbRegister)
  deriving DecidableEq, Repr

/-- struct `GdbStopInfo`. -/
structure GdbStopInfo where
  signal : ByteStr
  signal_number : Int
  signal_code : Int
  faulting_address : Option Nat
  deriving DecidableEq, Repr

/-- struct `GdbContextInfo`. -/
structure GdbContextInfo where
  stop_info : GdbStopInfo
  primary_thread : GdbThread
  other_threads : Option (List GdbThread)
  deriving DecidableEq, Repr

/-- struct `GdbJsonResult`: the decoded triage response.  Its single
field `result` is the optional crash context; the source comments that
the response "can be blank ({}) meaning error or target exited". -/
structure GdbJsonResult where
  result : Option GdbContextInfo
  deriving DecidableEq, Repr

/-- struct `ChildResult` (src/process.rs): captured stdout and stderr
of the debugger child plus its exit status. -/
structure ChildResult where
  stdout : ByteStr
  stderr : ByteStr
  status : Int
  deriving DecidableEq, Repr

/-- struct `GdbTriageResult`. -/
structure GdbTriageResult where
  response : GdbJsonResult
  child : ChildResult
  deriving DecidableEq, Repr

/-- enum `GdbTriageErrorKind` (named `Command`/`Internal`/`Timeout` in
src/debugger/gdb.rs). -/
inductive GdbTriageErrorKind where
  | ErrorCommand
  | ErrorInternal
  | ErrorTimeout
  deriving DecidableEq, Repr

/-- struct `GdbTriageError`: kind, short message, detail lines. -/
structure GdbTriageError where
  error_kind : GdbTriageErrorKind
  error : String
  details : List ByteStr
  deriving DecidableEq, Repr

/-- JSON values (the fragment produced by the triage script; numbers
are integers there). -/
inductive Json where
  | null
  | bool (b : Bool)
  | num (n : Int)
  | str (s : ByteStr)
  | arr (elems : List Json)
  | obj (fields : List (ByteStr × Json))

/-- Drop leading JSON whitespace. -/
def skipWs (s : ByteStr) : ByteStr :=
  s.dropWhile (fun b => b == 32 || b == 9 || b == 10 || b == 13)

/-- Consume an expected literal byte sequence. -/
def stripLit (lit s : ByteStr) : Option ByteStr :=
  if leadsWith lit s then some (s.drop lit.length) else none

/-- Value of a hexadecimal digit byte. -/
def hexVal (b : Nat) : Option Nat :=
  if 48 ≤ b ∧ b ≤ 57 then some (b - 48)
  else if 65 ≤ b ∧ b ≤ 70 then some (b - 55)
  else if 97 ≤ b ∧ b ≤ 102 then some (b - 87)
  else none

/-- Single-character JSON string escapes. -/
def unescape (c : Nat) : Option Nat :=
  if c = 34 then some 34
  else if c = 92 then some 92
  else if c = 47 then some 47
  else if c = 98 then some 8
  else if c = 102 then some 12
  else if c = 110 then some 10
  else if c = 114 then some 13
  else if c = 116 then some 9
  else none

/-- UTF-8 encoding of a BMP code point (the range reachable from a
single JSON `\uXXXX` escape). -/
def utf8Enc (n : Nat) : ByteStr :=
  if n < 128 then [n]
  else if n < 2048 then [192 + n / 64, 128 + n % 64]
  else [224 + n / 4096, 128 + (n / 64) % 64, 128 + n % 64]

/-- Parse the body of a JSON string after the opening quote; returns
the decoded bytes and the rest of the input. -/
def parseStrBody : ByteStr → Option (ByteStr × ByteStr)
  | [] => none
  | 34 :: rest => some ([], rest)
  | 92 :: 117 :: h1 :: h2 :: h3 :: h4 :: rest => do
    let d1 ← hexVal h1
    let d2 ← hexVal h2
    let d3 ← hexVal h3
    let d4 ← hexVal h4
    let p ← parseStrBody rest
    some (utf8Enc (((d1 * 16 + d2) * 16 + d3) * 16 + d4) ++ p.1, p.2)
  | 92 :: c :: rest => do
    let e ← unescape c
    let p ← parseStrBody rest
    some (e :: p.1, p.2)
  | c :: rest => do
    let p ← parseStrBody rest
    some (c :: p.1, p.2)

/-- Is the byte an ASCII digit? -/
def isDigitB (b : Nat) : Bool := 48 ≤ b && b ≤ 57

/-- Decimal value of a digit run. -/
def digitsToNat (ds : ByteStr) : Nat := ds.foldl (fun acc d => acc * 10 + (d - 48)) 0

/-- Parse a JSON integer (optional minus, digit run). -/
def parseNum (s : ByteStr) : Option (Json × ByteStr) :=
  match s with
  | 45 :: rest =>
    let ds := rest.takeWhile isDigitB
    if ds.isEmpty then none
    else some (.num (-(digitsToNat ds : Int)), rest.drop ds.length)
  | _ =>
    let ds := s.takeWhile isDigitB
    if ds.isEmpty then none
    else some (.num (digitsToNat ds), s.drop ds.length)

mutual

/-- Recursive-descent JSON parser (fuel-indexed so that it is
structurally recursive and hence computes by kernel reduction). -/
def parseJson : Nat → ByteStr → Option (Json × ByteStr)
  | 0, _ => none
  | Nat.succ fuel, s =>
    match skipWs s with
    | [] => none
    | c :: rest =>
      if c = 110 then (stripLit (asciiBytes ("ull")) rest).map (fun r => (Json.null, r))
      else if c = 116 then (stripLit (asciiBytes ("rue")) rest).map (fun r => (Json.bool true, r))
      else if c = 102 then (stripLit (asciiBytes ("alse")) rest).map (fun r => (Json.bool false, r))
      else if c = 34 then (parseStrBody rest).map (fun p => (Json.str p.1, p.2))
      else if c = 91 then parseArr fuel rest
      else if c = 123 then parseObj fuel rest
      else parseNum (c :: rest)

/-- Array parser, after the opening bracket. -/
def parseArr : Nat → ByteStr → Option (Json × ByteStr)
  | 0, _ => none
  | Nat.succ fuel, s =>
    match skipWs s with
    | 93 :: rest => some (Json.arr [], rest)
    | _ => parseArrTail fuel [] s

/-- Comma-separated array elements, then the closing bracket. -/
def parseArrTail : Nat → List Json → ByteStr → Option (Json × ByteStr)
  | 0, _, _ => none
  | Nat.succ fuel, acc, s =>
    match parseJson fuel s with
    | none => none
    | some (v, r) =>
      match skipWs r with
      | 44 :: r2 => parseArrTail fuel (acc ++ [v]) r2
      | 93 :: r2 => some (Json.arr (acc ++ [v]), r2)
      | _ => none

/-- Object parser, after the opening brace. -/
def parseObj : Nat → ByteStr → Option (Json × ByteStr)
  | 0, _ => none
  | Nat.succ fuel, s =>
    match skipWs s with
    | 125 :: rest => some (Json.obj [], rest)
    | _ => parseObjTail fuel [] s

/-- Comma-separated object members, then the closing brace. -/
def parseObjTail : Nat → List (ByteStr × Json) → ByteStr → Option (Json × ByteStr)
  | 0, _, _ => none
  | Nat.succ fuel, acc, s =>
    match skipWs s with
    | 34 :: rest =>
      match parseStrBody rest with
      | none => none
      | some (k, r) =>
        match skipWs r with
        | 58 :: r2 =>
          match parseJson fuel r2 with
          | none => none
          | some (v, r3) =>
            match skipWs r3 with
            | 44 :: r4 => parseObjTail fuel (acc ++ [(k, v)]) r4
            | 125 :: r4 => some (Json.obj (acc ++ [(k, v)]), r4)
            | _ => none
        | _ => none
    | _ => none

end

/-- First binding of a key in a decoded object. -/
def jLookup : List (ByteStr × Json) → ByteStr → Option Json
  | [], _ => none
  | (k, v) :: rest, key => if k = key then some v else jLookup rest key

/-- Decode a JSON string. -/
def decStr : Json → Option ByteStr
  | .str s => some s
  | _ => none

/-- Decode a `u64` (non-negative integer below 2^64). -/
def decU64 : Json → Option Nat
  | .num n => if 0 ≤ n ∧ n < (2 : Int) ^ 64 then some n.toNat else none
  | _ => none

/-- Decode an `i64`. -/
def decI64 : Json → Option Int
  | .num n => if -(2 : Int) ^ 63 ≤ n ∧ n < (2 : Int) ^ 63 then some n else none
  | _ => none

/-- Decode an `i32`. -/
def decI32 : Json → Option Int
  | .num n => if -(2 : Int) ^ 31 ≤ n ∧ n < (2 : Int) ^ 31 then some n else none
  | _ => none

/-- Decode a JSON array elementwise. -/
def decList (dec : Json → Option α) : Json → Option (List α)
  | .arr xs => xs.mapM dec
  | _ => none

/-- serde semantics of a required struct field. -/
def reqField (kvs : List (ByteStr × Json)) (key : String) (dec : Json → Option α) :
    Option α :=
  match jLookup kvs (asciiBytes key) with
  | some j => dec j
  | none => none

/-- serde semantics of an `Option<T>` struct field: absent or `null`
decodes to `None`. -/
def optField (kvs : List (ByteStr × Json)) (key : String) (dec : Json → Option α) :
    Option (Option α) :=
  match jLookup kvs (asciiBytes key) with
  | none => some none
  | some .null => some none
  | some j => (dec j).map some

/-- serde `Deserialize` for `GdbVariable`. -/
def decVariable : Json → Option GdbVariable
  | .obj kvs => do
    let t ← reqField kvs ("type") decStr
    let n ← reqField kvs ("name") decStr
    let v ← reqField kvs ("value") decStr
    some ⟨t, n, v⟩
  | _ => none

/-- serde `Deserialize` for `GdbSymbol`. -/
def decSymbol : Json → Option GdbSymbol
  | .obj kvs => do
    let fn ← optField kvs ("function_name") decStr
    let fl ← optField kvs ("function_line") decI64
    let mn ← optField kvs ("mangled_function_name") decStr
    let fs ← optField kvs ("function_signature") decStr
    let cs ← optField kvs ("callsite") (decList decStr)
    let f ← optField kvs ("file") decStr
    let l ← optField kvs ("line") decI64
    let ar ← optField kvs ("args") (decList decVariable)
    let lo ← optField kvs ("locals") (decList decVariable)
    some ⟨fn, fl, mn, fs, cs, f, l, ar, lo⟩
  | _ => none

/-- serde `Deserialize` for `GdbFrameInfo`. -/
def decFrame : Json → Option GdbFrameInfo
  | .obj kvs => do
    let a ← reqField kvs ("address") decU64
    let ra ← reqField kvs ("relative_address") decU64
    let m ← reqField kvs ("module") decStr
    let ma ← reqField kvs ("module_address") decStr
    let sy ← optField kvs ("symbol") decSymbol
    some ⟨a, ra, m, ma, sy⟩
  | _ => none

/-- serde `Deserialize` for `GdbRegister`. -/
def decRegister : Json → Option GdbRegister
  | .obj kvs => do
    let n ← reqField kvs ("name") decStr
    let v ← reqField kvs ("value") decU64
    let pv ← reqField kvs ("pretty_value") decStr
    let t ← reqField kvs ("type") decStr
    let sz ← reqField kvs ("size") decU64
    some ⟨n, v, pv, t, sz⟩
  | _ => none

/-- serde `Deserialize` for `GdbThread`. -/
def decThread : Json → Option GdbThread
  | .obj kvs => do
    let t ← reqField kvs ("tid") decI32
    let bt ← reqField kvs ("backtrace") (decList decFrame)
    let ci ← optField kvs ("current_instruction") decStr
    let rg ← optField kvs ("registers") (decList decRegister)
    some ⟨t, bt, ci, rg⟩
  | _ => none

/-- serde `Deserialize` for `GdbStopInfo`. -/
def decStopInfo : Json → Option GdbStopInfo
  | .obj kvs => do
    let sg ← reqField kvs ("signal") decStr
    let sn ← reqField kvs ("signal_number") decI32
    let sc ← reqField kvs ("signal_code") decI32
    let fa ← optField kvs ("faulting_address") decU64
    some ⟨sg, sn, sc, fa⟩
  | _ => none

/-- serde `Deserialize` for `GdbContextInfo`. -/
def decContext : Json → Option GdbContextInfo
  | .obj kvs => do
    let si ← reqField kvs ("stop_info") decStopInfo
    let pt ← reqField kvs ("primary_thread") decThread
    let ot ← optField kvs ("other_threads") (decList decThread)
    some ⟨si, pt, ot⟩
  | _ => none

/-- serde `Deserialize` for `GdbJsonResult` (optional `result` field). -/
def decJsonResult : Json → Option GdbJsonResult
  | .obj kvs => (optField kvs ("result") decContext).map (fun r => ⟨r⟩)
  | _ => none

/-- `GdbTriager::parse_response`, i.e. `serde_json::from_str` at type
`GdbJsonResult`: parse a single JSON value, allow trailing whitespace
only, and decode against the schema. -/
def parse_response (s : ByteStr) : Option GdbJsonResult :=
  match parseJson (s.length + 2) s with
  | some (j, rest) => if skipWs rest = [] then decJsonResult j else none
  | none => none

example : parse_response (asciiBytes ("{}")) = some ⟨none⟩ := by decide
example : parse_response [] = none := by decide
example :
    parse_response ([123] ++ asciiBytes (" \"result\": null ") ++ [125]) = some ⟨none⟩ := by
  decide

/-! ### The framing-and-decode stage of `GdbTriager::triage_program`
and the per-testcase classification of `main.rs` -/

/-- The error string carried by a failed extraction
(`e.to_string()` of the `Err(String)` branch). -/
def renderExtractErr : ExtractErr → ByteStr
  | .couldNotFind tag => asciiBytes ("Could not find ") ++ tag
  | .outOfOrder => asciiBytes ("Start marker and end marker out-of-order")

/-- Rust `str::lines` on the byte view: split at newline bytes,
stripping one carriage return before each split newline; a final
segment without a newline is yielded as-is; a trailing newline yields
no extra empty line.  The accumulator holds the current line
reversed. -/
def rustLinesAux : ByteStr → ByteStr → List ByteStr
  | [], cur => if cur = [] then [] else [cur.reverse]
  | 10 :: rest, cur =>
    (match cur with
     | 13 :: c2 => c2.reverse
     | _ => cur.reverse) :: rustLinesAux rest []
  | c :: rest, cur => rustLinesAux rest (c :: cur)

/-- Rust `str::lines`. -/
def rustLines (s : ByteStr) : List ByteStr := rustLinesAux s []

example : rustLines (asciiBytes ("a\r\nb\nc\n")) =
    [asciiBytes ("a"), asciiBytes ("b"), asciiBytes ("c")] := by decide
example : rustLines [] = [] := by decide

/-- The framing-and-decode stage of `GdbTriager::triage_program`
(gdb_triage.rs lines 359–404), given the captured debugger stdout and
stderr and its exit status: extract the child-output payloads from both
streams and the backtrace/diagnostic payloads between the backtrace
markers, fail with "Triage script emitted errors" when the backtrace
payload is empty while the stderr diagnostics are not, and otherwise
JSON-decode the backtrace payload (the serde error text is abstracted
as "invalid JSON").  A panic in extraction propagates. -/
def triage_program_model (gdb_stdout gdb_stderr : ByteStr) (status : Int) :
    RRes GdbTriageResult GdbTriageError :=
  match DbgMarker.extract MARKER_CHILD_OUTPUT gdb_stdout with
  | .panicked => .panicked
  | .err e => .err ⟨.ErrorCommand, "Could not extract child STDOUT", [renderExtractErr e]⟩
  | .ok child_output_stdout =>
    match DbgMarker.extract MARKER_CHILD_OUTPUT gdb_stderr with
    | .panicked => .panicked
    | .err e => .err ⟨.ErrorCommand, "Could not extract child STDERR", [renderExtractErr e]⟩
    | .ok child_output_stderr =>
      match DbgMarker.extract MARKER_BACKTRACE gdb_stdout with
      | .panicked => .panicked
      | .err e =>
        .err ⟨.ErrorCommand, "Failed to get triage JSON from GDB", [renderExtractErr e]⟩
      | .ok backtrace_output =>
        match DbgMarker.extract MARKER_BACKTRACE gdb_stderr with
        | .panicked => .panicked
        | .err e =>
          .err ⟨.ErrorCommand, "Failed to get triage errors from GDB", [renderExtractErr e]⟩
        | .ok backtrace_messages =>
          if backtrace_output = [] ∧ backtrace_messages ≠ [] then
            .err ⟨.ErrorCommand, "Triage script emitted errors", rustLines backtrace_messages⟩
          else
            match parse_response backtrace_output with
            | some json =>
              .ok ⟨json, ⟨child_output_stdout, child_output_stderr, status⟩⟩
            | none =>
              .err ⟨.ErrorCommand, "Failed to parse triage JSON from GDB",
                [asciiBytes ("invalid JSON")]⟩

/-- enum `TriageResult` of main.rs. -/
inductive TriageResult where
  | NoCrash (child : ChildResult)
  | Crash (triage : GdbTriageResult)
  | Error (e : GdbTriageError)
  | Timedout
  deriving DecidableEq, Repr

/-- The classification step of `triage_test_case` (main.rs lines
237–254): timeout errors map to `Timedout`, other errors to `Error`,
and a decoded response maps to `NoCrash` (carrying the child output)
exactly when its optional context field is `None`, else to `Crash`.
`none` records a propagated panic. -/
def triage_test_case_classify (r : RRes GdbTriageResult GdbTriageError) :
    Option TriageResult :=
  match r with
  | .panicked => none
  | .err e => if e.error_kind = .ErrorTimeout then some .Timedout else some (.Error e)
  | .ok triage_result =>
    if triage_result.response.result.isNone then some (.NoCrash triage_result.child)
    else some (.Crash triage_result)

/-- `triage_test_case` from the point where the debugger has been run:
frame, decode, classify. -/
def triage_test_case_model (gout gerr : ByteStr) (status : Int) : Option TriageResult :=
  triage_test_case_classify (triage_program_model gout gerr status)

theorem triage_ok_inversion {gout gerr : ByteStr} {status : Int} {t : GdbTriageResult}
    (h : triage_program_model gout gerr status = .ok t) :
    t.child.status = status
    ∧ DbgMarker.extract MARKER_CHILD_OUTPUT gout = .ok t.child.stdout
    ∧ DbgMarker.extract MARKER_CHILD_OUTPUT gerr = .ok t.child.stderr := by
  unfold triage_program_model at h
  cases h1 : DbgMarker.extract MARKER_CHILD_OUTPUT gout with
  | panicked => rw [h1] at h; simp at h
  | err e => rw [h1] at h; simp at h
  | ok co =>
    rw [h1] at h
    simp only at h
    cases h2 : DbgMarker.extract MARKER_CHILD_OUTPUT gerr with
    | panicked => rw [h2] at h; simp at h
    | err e => rw [h2] at h; simp at h
    | ok ce =>
      rw [h2] at h
      simp only at h
      cases h3 : DbgMarker.extract MARKER_BACKTRACE gout with
      | panicked => rw [h3] at h; simp at h
      | err e => rw [h3] at h; simp at h
      | ok bo =>
        rw [h3] at h
        simp only at h
        cases h4 : DbgMarker.extract MARKER_BACKTRACE gerr with
        | panicked => rw [h4] at h; simp at h
        | err e => rw [h4] at h; simp at h
        | ok bm =>
          rw [h4] at h
          simp only at h
          split at h
          · simp at h
          · cases h5 : parse_response bo with
            | some j =>
              rw [h5] at h
              simp only at h
              rcases RRes.ok.inj h with rfl
              exact ⟨rfl, rfl, rfl⟩
            | none => rw [h5] at h; simp at h

/-- C2: for an invocation whose debugger output frames and decodes
successfully (the pipeline returns `Ok t`), the classified outcome is
`Crash t` exactly when the decoded response carries a context; when the
response encodes a non-crash — in the compiled schema, the optional
context field absent, which is how the script encodes target-exited
(ERROR_TARGET_NOT_RUNNING) responses such as `{}` — the outcome is
`NoCrash` carrying the child stdout and stderr extracted from between
the child-output markers together with the exit status. -/
theorem triage_outcome_crash_iff_context (gout gerr : ByteStr) (status : Int)
    (t : GdbTriageResult) (h : triage_program_model gout gerr status = .ok t) :
    (triage_test_case_model gout gerr status = some (.Crash t) ↔
        t.response.result.isSome = true)
    ∧ (t.response.result = none →
        triage_test_case_model gout gerr status = some (.NoCrash t.child)
        ∧ t.child.status = status
        ∧ DbgMarker.extract MARKER_CHILD_OUTPUT gout = .ok t.child.stdout
        ∧ DbgMarker.extract MARKER_CHILD_OUTPUT gerr = .ok t.child.stderr) := by
  have hinv := triage_ok_inversion h
  constructor
  · unfold triage_test_case_model triage_test_case_classify
    rw [h]
    cases hr : t.response.result with
    | none => simp [hr]
    | some c => simp [hr]
  · intro hr
    refine ⟨?_, hinv.1, hinv.2.1, hinv.2.2⟩
    unfold triage_test_case_model triage_test_case_classify
    rw [h]
    simp [hr]

/-- C2 witness: a concrete invocation whose backtrace payload is the
empty object, classified as `NoCrash` with the extracted child
output. -/
theorem triage_outcome_crash_iff_context_inst :
    triage_test_case_model
        (asciiBytes ("----AFLTRIAGE_CHILD_OUTPUT_START----\nout\n----AFLTRIAGE_CHILD_OUTPUT_END----\n----AFLTRIAGE_BACKTRACE_START----\n{}\n----AFLTRIAGE_BACKTRACE_END----\n"))
        (asciiBytes ("----AFLTRIAGE_CHILD_OUTPUT_START----\n----AFLTRIAGE_CHILD_OUTPUT_END----\n----AFLTRIAGE_BACKTRACE_START----\n----AFLTRIAGE_BACKTRACE_END----\n"))
        0
      = some (.NoCrash ⟨asciiBytes ("out\n"), [], 0⟩) := by
  have h := (triage_outcome_crash_iff_context
      (asciiBytes ("----AFLTRIAGE_CHILD_OUTPUT_START----\nout\n----AFLTRIAGE_CHILD_OUTPUT_END----\n----AFLTRIAGE_BACKTRACE_START----\n{}\n----AFLTRIAGE_BACKTRACE_END----\n"))
      (asciiBytes ("----AFLTRIAGE_CHILD_OUTPUT_START----\n----AFLTRIAGE_CHILD_OUTPUT_END----\n----AFLTRIAGE_BACKTRACE_START----\n----AFLTRIAGE_BACKTRACE_END----\n"))
      0 ⟨⟨none⟩, ⟨asciiBytes ("out\n"), [], 0⟩⟩ (by decide)).2 rfl
  exact h.1

/-- C3 (amended): with all four marker regions extracting successfully,
the pipeline returns the Command error titled "Triage script emitted
errors" — with the stderr diagnostic lines as details — exactly when
the backtrace payload is empty and the diagnostic payload is non-empty;
but with both payloads empty the result is still a Command error,
namely "Failed to parse triage JSON from GDB", because the empty
payload fails JSON parsing (the unamended claim said no Command error
is reported in that case; see the counterexample). -/
theorem triage_script_errors_iff (gout gerr : ByteStr) (status : Int)
    (co ce bo bm : ByteStr)
    (h1 : DbgMarker.extract MARKER_CHILD_OUTPUT gout = .ok co)
    (h2 : DbgMarker.extract MARKER_CHILD_OUTPUT gerr = .ok ce)
    (h3 : DbgMarker.extract MARKER_BACKTRACE gout = .ok bo)
    (h4 : DbgMarker.extract MARKER_BACKTRACE gerr = .ok bm) :
    ((triage_program_model gout gerr status =
        .err ⟨.ErrorCommand, "Triage script emitted errors", rustLines bm⟩) ↔
      (bo = [] ∧ bm ≠ []))
    ∧ (bo = [] → bm = [] →
        triage_program_model gout gerr status =
          .err ⟨.ErrorCommand, "Failed to parse triage JSON from GDB",
            [asciiBytes ("invalid JSON")]⟩) := by
  unfold triage_program_model
  rw [h1, h2, h3, h4]
  simp only
  constructor
  · constructor
    · intro heq
      by_cases hc : bo = [] ∧ bm ≠ []
      · exact hc
      · rw [if_neg hc] at heq
        cases h5 : parse_response bo with
        | some j => rw [h5] at heq; simp at heq
        | none =>
          rw [h5] at heq
          simp only at heq
          have hE : ("Failed to parse triage JSON from GDB" : String) =
              "Triage script emitted errors" :=
            congrArg GdbTriageError.error (RRes.err.inj heq)
          exact absurd hE (by decide)
    · rintro ⟨hbo, hbm⟩
      rw [if_pos ⟨hbo, hbm⟩]
  · intro hbo hbm
    rw [if_neg (fun hc => hc.2 hbm)]
    subst hbo
    rw [show parse_response [] = none from rfl]

/-- C3 counterexample: a debugger run in which all four regions frame
successfully and both the backtrace payload and the stderr diagnostic
payload are empty; contrary to the claim the pipeline does report a
Command error (the JSON-parse failure on the empty payload). -/
theorem empty_payloads_parse_error :
    DbgMarker.extract MARKER_BACKTRACE
        (asciiBytes ("----AFLTRIAGE_CHILD_OUTPUT_START----\nhello\n----AFLTRIAGE_CHILD_OUTPUT_END----\n----AFLTRIAGE_BACKTRACE_START----\n----AFLTRIAGE_BACKTRACE_END----\n")) = .ok []
    ∧ DbgMarker.extract MARKER_BACKTRACE
        (asciiBytes ("----AFLTRIAGE_CHILD_OUTPUT_START----\n----AFLTRIAGE_CHILD_OUTPUT_END----\n----AFLTRIAGE_BACKTRACE_START----\n----AFLTRIAGE_BACKTRACE_END----\n")) = .ok []
    ∧ triage_program_model
        (asciiBytes ("----AFLTRIAGE_CHILD_OUTPUT_START----\nhello\n----AFLTRIAGE_CHILD_OUTPUT_END----\n----AFLTRIAGE_BACKTRACE_START----\n----AFLTRIAGE_BACKTRACE_END----\n"))
        (asciiBytes ("----AFLTRIAGE_CHILD_OUTPUT_START----\n----AFLTRIAGE_CHILD_OUTPUT_END----\n----AFLTRIAGE_BACKTRACE_START----\n----AFLTRIAGE_BACKTRACE_END----\n"))
        0
      = .err ⟨.ErrorCommand, "Failed to parse triage JSON from GDB",
          [asciiBytes ("invalid JSON")]⟩ := by
  decide

/-- C3 witness: with an empty backtrace payload and a non-empty stderr
diagnostic payload, the amended theorem yields the script-errors
Command error with the diagnostic lines as details. -/
theorem triage_script_errors_iff_inst :
    triage_program_model
        (asciiBytes ("----AFLTRIAGE_CHILD_OUTPUT_START----\nhello\n----AFLTRIAGE_CHILD_OUTPUT_END----\n----AFLTRIAGE_BACKTRACE_START----\n----AFLTRIAGE_BACKTRACE_END----\n"))
        (asciiBytes ("----AFLTRIAGE_CHILD_OUTPUT_START----\n----AFLTRIAGE_CHILD_OUTPUT_END----\n----AFLTRIAGE_BACKTRACE_START----\noops\n----AFLTRIAGE_BACKTRACE_END----\n"))
        0
      = .err ⟨.ErrorCommand, "Triage script emitted errors", [asciiBytes ("oops")]⟩ := by
  have h := (triage_script_errors_iff
      (asciiBytes ("----AFLTRIAGE_CHILD_OUTPUT_START----\nhello\n----AFLTRIAGE_CHILD_OUTPUT_END----\n----AFLTRIAGE_BACKTRACE_START----\n----AFLTRIAGE_BACKTRACE_END----\n"))
      (asciiBytes ("----AFLTRIAGE_CHILD_OUTPUT_START----\n----AFLTRIAGE_CHILD_OUTPUT_END----\n----AFLTRIAGE_BACKTRACE_START----\noops\n----AFLTRIAGE_BACKTRACE_END----\n"))
      0 (asciiBytes ("hello\n")) [] [] (asciiBytes ("oops\n"))
      (by decide) (by decide) (by decide) (by decide)).1.mpr ⟨rfl, by decide⟩
  rw [h]
  decide

/-! ### Aggregate state (main.rs `TriageState` and the per-testcase
update performed under the lock) -/

/-- struct `TriageState`: the shared aggregate state (the `HashSet` of
stack hashes and the `HashMap` of unique errors are modelled as lists
with set/map insertion). -/
structure TriageState where
  crashed : Nat
  no_crash : Nat
  timedout : Nat
  errored : Nat
  crash_signature : List String
  unique_errors : List (GdbTriageError × Nat)
  deriving DecidableEq, Repr

/-- The initial aggregate state built before the worker pool starts. -/
def initTriageState : TriageState := ⟨0, 0, 0, 0, [], []⟩

/-- Insert-or-bump on the unique-error map (`unique_errors.get_mut` /
`insert` in main.rs). -/
def bumpError : List (GdbTriageError × Nat) → GdbTriageError → List (GdbTriageError × Nat)
  | [], e => [(e, 1)]
  | (k, n) :: rest, e =>
    if k = e then (k, n + 1) :: rest else (k, n) :: bumpError rest e

/-- The state update performed under the lock for one completed test
case (main.rs lines 746–856): each outcome bumps its counter; a crash
additionally inserts the stack hash when unseen; an error additionally
bumps the unique-error map.  `stackhash` abstracts the external report
formatter. -/
def update_state (stackhash : GdbTriageResult → String) (st : TriageState)
    (r : TriageResult) : TriageState :=
  match r with
  | .NoCrash _ => { st with no_crash := st.no_crash + 1 }
  | .Timedout => { st with timedout := st.timedout + 1 }
  | .Crash triage =>
    if stackhash triage ∈ st.crash_signature then
      { st with crashed := st.crashed + 1 }
    else
      { st with crashed := st.crashed + 1,
                crash_signature := stackhash triage :: st.crash_signature }
  | .Error e =>
    { st with errored := st.errored + 1,
              unique_errors := bumpError st.unique_errors e }

/-- The four outcome counters of the aggregate state. -/
def counters (st : TriageState) : Nat × Nat × Nat × Nat :=
  (st.crashed, st.no_crash, st.timedout, st.errored)

/-- Sum of the four outcome counters. -/
def counterSum (st : TriageState) : Nat :=
  st.crashed + st.no_crash + st.timedout + st.errored

/-- C4: each completed test case increments exactly one of the four
counters by exactly one (shown per outcome), so after the aggregation
loop over all test cases the counters sum to the number of test
cases. -/
theorem triage_counters_sum_total (stackhash : GdbTriageResult → String) :
    (∀ st c, counters (update_state stackhash st (.NoCrash c)) =
        (st.crashed, st.no_crash + 1, st.timedout, st.errored))
    ∧ (∀ st t, counters (update_state stackhash st (.Crash t)) =
        (st.crashed + 1, st.no_crash, st.timedout, st.errored))
    ∧ (∀ st, counters (update_state stackhash st .Timedout) =
        (st.crashed, st.no_crash, st.timedout + 1, st.errored))
    ∧ (∀ st e, counters (update_state stackhash st (.Error e)) =
        (st.crashed, st.no_crash, st.timedout, st.errored + 1))
    ∧ ∀ results : List TriageResult,
        counterSum (results.foldl (update_state stackhash) initTriageState) =
          results.length := by
  have hstep : ∀ st r, counterSum (update_state stackhash st r) = counterSum st + 1 := by
    intro st r
    cases r with
    | NoCrash c => simp [update_state, counterSum]; omega
    | Timedout => simp [update_state, counterSum]; omega
    | Crash t =>
      simp only [update_state, counterSum]
      by_cases hmem : stackhash t ∈ st.crash_signature
      · rw [if_pos hmem]
        (try simp) <;> omega
      · rw [if_neg hmem]
        (try simp) <;> omega
    | Error e => simp [update_state, counterSum]; omega
  have hfold : ∀ (results : List TriageResult) (st : TriageState),
      counterSum (results.foldl (update_state stackhash) st) =
        counterSum st + results.length := by
    intro results
    induction results with
    | nil => intro st; simp
    | cons r rest ih =>
      intro st
      simp only [List.foldl_cons, List.length_cons]
      rw [ih, hstep]
      omega
  refine ⟨?_, ?_, ?_, ?_, ?_⟩
  · intro st c; simp [update_state, counters]
  · intro st t
    simp only [update_state, counters]
    by_cases hmem : stackhash t ∈ st.crash_signature
    · rw [if_pos hmem]
    · rw [if_neg hmem]
  · intro st; simp [update_state, counters]
  · intro st e; simp [update_state, counters]
  · intro results
    rw [hfold results initTriageState]
    simp [initTriageState, counterSum]

/-! ### `@@` substitution (main.rs `expand_filepath_templates`) -/

/-- `expand_filepath_templates` (main.rs lines 210–222): each argv
token equal to `@@` is replaced by the test-case path; every other
token is pushed unchanged. -/
def expand_filepath_templates (args : List String) (value : String) : List String :=
  args.map (fun arg => if arg = "@@" then value else arg)

/-- C5 (amended): `@@` substitution preserves the argv length and every
token other than `@@` verbatim at its position; and — provided no token
other than `@@` already equals the test-case path — the number of
occurrences of the path in the produced argv equals the number of `@@`
tokens in the original (without that proviso the counts can differ; see
the counterexample). -/
theorem expand_templates_spec (args : List String) (value : String) :
    (expand_filepath_templates args value).length = args.length
    ∧ (∀ i a, args.get? i = some a → a ≠ "@@" →
        (expand_filepath_templates args value).get? i = some a)
    ∧ ((∀ a ∈ args, a ≠ "@@" → a ≠ value) →
        (expand_filepath_templates args value).count value = args.count ("@@")) := by
  refine ⟨by simp [expand_filepath_templates], ?_, ?_⟩
  · intro i a hget hne
    unfold expand_filepath_templates
    rw [List.get?_map, hget]
    simp [hne]
  · intro hyp
    unfold expand_filepath_templates
    induction args with
    | nil => rfl
    | cons a rest ih =>
      have hrest := ih (fun x hx => hyp x (List.mem_cons_of_mem a hx))
      by_cases ha : a = "@@"
      · subst ha
        simp only [List.map_cons, if_pos rfl, List.count_cons]
        rw [hrest]
        simp
      · have hav : a ≠ value := hyp a (List.mem_cons_self a rest) ha
        simp only [List.map_cons, if_neg ha, List.count_cons]
        rw [hrest]
        simp [ha, hav]

/-- C5 counterexample: with argv `["a"]` and test-case path `"a"`,
the produced argv contains the path once although the original argv
contains no `@@` token. -/
theorem expand_templates_count_mismatch :
    (expand_filepath_templates [("a" : String)] ("a")).count ("a") = 1
    ∧ List.count ("@@") [("a" : String)] = 0 := by
  decide

/-- C5 witness: the amended count equation on a concrete argv. -/
theorem expand_templates_spec_inst :
    (expand_filepath_templates [("@@" : String), "-v"] ("/tmp/tc")).count ("/tmp/tc") =
      List.count ("@@") [("@@" : String), "-v"] :=
  (expand_templates_spec [("@@" : String), "-v"] ("/tmp/tc")).2.2 (by decide)

/-! ### Input classification (main.rs `determine_input_type`) -/

/-- enum `UserInputPathType` (`AflDir` is the fuzzer-directory case). -/
inductive UserInputPathType where
  | Unknown
  | Missing
  | Single
  | PlainDir
  | AflDir
  deriving DecidableEq, Repr

/-- The file type reported by `symlink_metadata`: regular file,
directory, or neither (e.g. a symlink, which `symlink_metadata` does
not follow). -/
structure FileTypeInfo where
  is_file : Bool
  is_dir : Bool
  deriving DecidableEq, Repr

/-- The filesystem observations `determine_input_type` makes about one
input path: its `symlink_metadata` (absent on error) and the
existence — following symlinks — of `fuzzer_stats`, `queue` and
`crashes` under the path. -/
structure FsView where
  metadata : Option FileTypeInfo
  fuzzer_stats_exists : Bool
  queue_exists : Bool
  crashes_exists : Bool
  deriving DecidableEq, Repr

/-- `determine_input_type` (main.rs lines 277–300): Missing when
metadata is absent; Single for a regular file; then — before any
directory check — AflDir when any of the three marker paths exists;
then PlainDir for a directory; else Unknown. -/
def determine_input_type (v : FsView) : UserInputPathType :=
  match v.metadata with
  | none => .Missing
  | some ft =>
    if ft.is_file then .Single
    else if v.fuzzer_stats_exists || v.queue_exists || v.crashes_exists then .AflDir
    else if ft.is_dir then .PlainDir
    else .Unknown

/-- C8 (amended): classification follows the decision order Missing,
Single, FuzzerDir, PlainDir, Unknown — but the FuzzerDir test checks
only the existence of the marker paths, before testing whether the
input is a directory, so a path that is neither a regular file nor a
directory with an existing marker is classified FuzzerDir (the
unamended claim said that never happens; see the counterexample). -/
theorem determine_input_type_spec (v : FsView) :
    (v.metadata = none → determine_input_type v = .Missing)
    ∧ (∀ ft, v.metadata = some ft → ft.is_file = true →
        determine_input_type v = .Single)
    ∧ (∀ ft, v.metadata = some ft → ft.is_file = false →
        (v.fuzzer_stats_exists || v.queue_exists || v.crashes_exists) = true →
        determine_input_type v = .AflDir)
    ∧ (∀ ft, v.metadata = some ft → ft.is_file = false →
        (v.fuzzer_stats_exists || v.queue_exists || v.crashes_exists) = false →
        ft.is_dir = true → determine_input_type v = .PlainDir)
    ∧ (∀ ft, v.metadata = some ft → ft.is_file = false →
        (v.fuzzer_stats_exists || v.queue_exists || v.crashes_exists) = false →
        ft.is_dir = false → determine_input_type v = .Unknown) := by
  refine ⟨?_, ?_, ?_, ?_, ?_⟩
  · intro h; unfold determine_input_type; rw [h]
  · intro ft h hf; unfold determine_input_type; rw [h]; simp [hf]
  · intro ft h hf hm; unfold determine_input_type; rw [h]; simp [hf, hm]
  · intro ft h hf hm hd
    unfold determine_input_type
    rw [h]
    simp only [hf, Bool.false_eq_true, if_false, hm, hd, if_true]
  · intro ft h hf hm hd
    unfold determine_input_type
    rw [h]
    simp only [hf, Bool.false_eq_true, if_false, hm, hd]

/-- C8 counterexample: a path whose `symlink_metadata` is neither a
regular file nor a directory (a symlink), pointing at a directory that
contains `fuzzer_stats`: the code classifies it FuzzerDir, which the
claim says can never happen. -/
theorem nonfile_nondir_classified_afldir :
    determine_input_type ⟨some ⟨false, false⟩, true, false, false⟩ = .AflDir := by
  decide

/-- C8 witness: a marker-free directory is classified PlainDir. -/
theorem determine_input_type_spec_inst :
    determine_input_type ⟨some ⟨false, true⟩, false, false, false⟩ = .PlainDir :=
  (determine_input_type_spec ⟨some ⟨false, true⟩, false, false, false⟩).2.2.2.1
    ⟨false, true⟩ rfl rfl rfl rfl

/-! ### Worker-pool sizing (main.rs lines 620–694) -/

/-- `max_recommended_threadcount` as computed by `main_wrapper`: start
from the CPU count; when profiling ran and available memory is known,
lower it to `memkb / debugger_rss` if that is smaller. -/
def max_recommended_threadcount (cpus : Nat) (profiled : Bool) (memkb : Option Nat)
    (debugger_rss : Nat) : Nat :=
  if profiled then
    match memkb with
    | some m => if m / debugger_rss < cpus then m / debugger_rss else cpus
    | none => cpus
  else cpus

/-- The final pool size of `main_wrapper`: an explicit `-j` count is
used as requested (exceeding the recommendation only triggers a
warning); otherwise the recommendation is used; the result is clamped
to the number of test cases and to at least 1. -/
def job_count (jobs : Option Nat) (maxrec num_testcases : Nat) : Nat :=
  max 1 (min (jobs.getD maxrec) num_testcases)

/-- C9 (amended): when profiling ran with known available memory,
max_workers is min(CPU count, floor(available_kb / debugger_rss)), and
the pool size is max(1, min(requested, testcases)) where requested is
the explicit `-j` value when given and max_workers otherwise; so the
max_workers bound applies only when `-j` is absent — an explicit `-j`
is not capped by it (the unamended claim said the cap applies then too;
see the counterexample) — and the pool size is always at least 1. -/
theorem job_count_spec (cpus m rss len j : Nat) :
    max_recommended_threadcount cpus true (some m) rss = min cpus (m / rss)
    ∧ job_count (some j) (max_recommended_threadcount cpus true (some m) rss) len =
        max 1 (min j len)
    ∧ job_count none (max_recommended_threadcount cpus true (some m) rss) len =
        max 1 (min (min cpus (m / rss)) len)
    ∧ 1 ≤ job_count (some j) (max_recommended_threadcount cpus true (some m) rss) len := by
  have h1 : max_recommended_threadcount cpus true (some m) rss = min cpus (m / rss) := by
    unfold max_recommended_threadcount
    simp only [if_true]
    split <;> omega
  refine ⟨h1, ?_, ?_, ?_⟩
  · simp [job_count]
  · simp [job_count, h1]
  · simp [job_count]

/-- C9 counterexample: 4 CPUs, 100 KB available, 50 KB debugger RSS
give max_workers = 2; with an explicit `-j 8` and 10 test cases the
pool size claimed is min(8, 2, 10) = 2 but the code builds 8
workers. -/
theorem explicit_jobs_not_capped :
    job_count (some 8) (max_recommended_threadcount 4 true (some 100) 50) 10 = 8
    ∧ min 8 (min (max_recommended_threadcount 4 true (some 100) 50) 10) = 2 := by
  decide
